import Mathlib

set_option autoImplicit false

namespace MapsListComparator

/-! Shallow embedding of the Google-Maps-List-Comparator core (src-tauri/src).
Byte strings are `List Nat`, SQL timestamps and f64 coordinates are modelled as
exact rationals, and fallible operations return `Except AppError`. -/

/-- Lifecycle of secret material issued by `SecretVault` (secrets.rs). -/
inductive SecretLifecycle
  | Retrieved
  | Created
  | Rotated
deriving DecidableEq, Repr

/-- SQLite primary result codes distinguished by db.rs (`rusqlite::ffi::ErrorCode`). -/
inductive ErrorCode
  | NotADatabase
  | SystemIoFailure
  | OutOfMemory
  | OtherCode
deriving DecidableEq, Repr

/-- Shape of `rusqlite::Error`: the `SqliteFailure` variant carries a result
code and an optional message; every other variant is collapsed, keeping
`QueryReturnedNoRows` apart because `query_row` produces it. -/
inductive SqliteError
  | sqliteFailure (code : ErrorCode) (message : Option String)
  | queryReturnedNoRows
  | otherVariant
deriving DecidableEq, Repr

/-- The aspects of `reqwest::Error` inspected by `classify_places_error`. -/
structure HttpError where
  is_timeout : Bool
  is_connect : Bool
  status : Option Nat
deriving DecidableEq, Repr

/-- The error taxonomy of errors.rs, restricted to the variants the embedded
functions construct or inspect. -/
inductive AppError
  | Path (msg : String)
  | IoErr
  | Database (err : SqliteError)
  | Keychain
  | Json
  | Http (err : HttpError)
  | Config (msg : String)
  | Parse (msg : String)
deriving DecidableEq, Repr

/-- Tests whether the first character list starts the second. -/
def leadsWith : List Char → List Char → Bool
  | [], _ => true
  | _ :: _, [] => false
  | p :: ps, c :: cs => p == c && leadsWith ps cs

/-- Tests whether the first character list occurs contiguously in the second. -/
def occursIn (pat : List Char) : List Char → Bool
  | [] => leadsWith pat []
  | c :: cs => leadsWith pat (c :: cs) || occursIn pat cs

/-- Substring test mirroring Rust's `str::contains` with a string pattern. -/
def strContains (s pat : String) : Bool :=
  occursIn pat.data s.data

/-! Encrypted store bootstrap (db.rs). The SQLCipher open, pragma and
migration steps touch the real filesystem and SQLite, so they are abstracted
as `Except AppError (Option (List Nat))` parameters whose `.ok` payload is the
database file content after the step (`none` when no file exists); everything
downstream of those steps is translated directly. -/

/-- The 16 bytes of the plaintext magic `SQLite format 3\0`. -/
def SQLITE_MAGIC : List Nat :=
  [83, 81, 76, 105, 116, 101, 32, 102, 111, 114, 109, 97, 116, 32, 51, 0]

/-- db.rs `assert_encrypted`: missing file is a `Path` error; otherwise read up
to 16 bytes into a zeroed buffer and fail with `Config` when exactly 16 bytes
were read and they equal the plaintext magic. -/
def assert_encrypted (file : Option (List Nat)) : Except AppError Unit :=
  match file with
  | none => .error (.Path "expected encrypted database")
  | some bytes =>
    let read := min 16 bytes.length
    let header := bytes.take 16 ++ List.replicate (16 - bytes.length) 0
    if read = 16 ∧ header = SQLITE_MAGIC then
      .error (.Config "database header is plaintext; SQLCipher key not applied")
    else
      .ok ()

/-- db.rs `establish_context_with_mode`: run the abstracted
open/pragmas/cipher/migrations step, then `assert_encrypted` on the resulting
file; the returned context carries the file content. -/
def establish_context_with_mode (openMigrate : Except AppError (Option (List Nat))) :
    Except AppError (Option (List Nat)) :=
  match openMigrate with
  | .error e => .error e
  | .ok file =>
    match assert_encrypted file with
    | .error e => .error e
    | .ok _ => .ok file

/-- db.rs `is_memory_security_error`. -/
def is_memory_security_error (err : AppError) : Bool :=
  match err with
  | .Database (.sqliteFailure .OutOfMemory _) => true
  | _ => false

/-- db.rs `establish_context`: try with `cipher_memory_security` enforced
(step outcome `openEnforced`); on an out-of-memory database failure retry in
relaxed mode (step outcome `openRelaxed`). -/
def establish_context (openEnforced openRelaxed : Except AppError (Option (List Nat))) :
    Except AppError (Option (List Nat)) :=
  match establish_context_with_mode openEnforced with
  | .ok ctx => .ok ctx
  | .error err =>
    if is_memory_security_error err then establish_context_with_mode openRelaxed
    else .error err

/-- The code-based half of db.rs `should_attempt_recovery`: result codes
`NotADatabase` and `SystemIoFailure` are recoverable. -/
def recoverable_code (code : ErrorCode) : Bool :=
  match code with
  | .NotADatabase => true
  | .SystemIoFailure => true
  | _ => false

/-- The message-based half of db.rs `should_attempt_recovery`. -/
def recoverable_message (message : Option String) : Bool :=
  match message with
  | some msg =>
    strContains msg "encrypted" || strContains msg "database disk image is malformed"
  | none => false

/-- db.rs `should_attempt_recovery`. -/
def should_attempt_recovery (err : SqliteError) (dbExists : Bool) : Bool :=
  if dbExists then
    match err with
    | .sqliteFailure code message => recoverable_code code || recoverable_message message
    | _ => false
  else false

/-- Result of db.rs `bootstrap`: the database context (file content), the key
lifecycle reported to the caller, and the `recovered` flag. -/
structure BootstrapOutcome where
  context : Option (List Nat)
  key_lifecycle : SecretLifecycle
  recovered : Bool
deriving DecidableEq, Repr

/-- Side effects performed by the recovery arm of db.rs `bootstrap`:
deletions done by `recover_encrypted_store` and the `vault.rotate` call. -/
structure RecoveryActions where
  deleted_db : Bool
  deleted_wal : Bool
  deleted_shm : Bool
  rotated_key : Bool
deriving DecidableEq, Repr

/-- No recovery action was performed. -/
def noActions : RecoveryActions := ⟨false, false, false, false⟩

/-- db.rs `bootstrap` with the two `establish_context` calls' open-and-migrate
steps abstracted (`open1`/`open1Relaxed` for the first attempt,
`open2`/`open2Relaxed` for the retry after recovery), `dbExists` the
`db_path.exists()` probe used by `should_attempt_recovery`, and `lifecycle`
the result of `vault.ensure`. Returns the bootstrap result paired with the
recovery actions performed. -/
def bootstrap (open1 open1Relaxed open2 open2Relaxed : Except AppError (Option (List Nat)))
    (dbExists : Bool) (lifecycle : SecretLifecycle) :
    Except AppError BootstrapOutcome × RecoveryActions :=
  match establish_context open1 open1Relaxed with
  | .ok ctx => (.ok ⟨ctx, lifecycle, false⟩, noActions)
  | .error e =>
    match e with
    | .Database err =>
      if should_attempt_recovery err dbExists then
        let rotated := decide (lifecycle = SecretLifecycle.Retrieved)
        let lifecycle' := if rotated then SecretLifecycle.Rotated else lifecycle
        let actions : RecoveryActions := ⟨true, true, true, rotated⟩
        match establish_context open2 open2Relaxed with
        | .ok ctx => (.ok ⟨ctx, lifecycle', true⟩, actions)
        | .error e2 => (.error e2, actions)
      else (.error (.Database err), noActions)
    | _ => (.error e, noActions)

/-! Project registry (projects.rs): only the columns `set_active_project`
touches are modelled. -/

/-- A `comparison_projects` row restricted to the columns relevant to the
active-project invariant. -/
structure ProjectRow where
  id : Int
  is_active : Bool
deriving DecidableEq, Repr

/-- projects.rs `set_active_project`: one UPDATE sets
`is_active = CASE WHEN id = ?1 THEN 1 ELSE 0 END` on every row whose id is in
the table, i.e. on every row, so SQLite's change counter equals the table
size and the `affected == 0` branch fires only on an empty table. -/
def set_active_project (table : List ProjectRow) (project_id : Int) :
    Except AppError (List ProjectRow) :=
  let updated := table.map fun r => { r with is_active := decide (r.id = project_id) }
  let affected := table.length
  if affected = 0 then
    .error (.Config ("comparison project " ++ toString project_id ++ " not found"))
  else .ok updated

/-- Number of `comparison_projects` rows with `is_active = 1`. -/
def countActive (table : List ProjectRow) : Nat :=
  (table.filter fun r => r.is_active).length

/-! Place normalizer (places.rs). Database snapshots are association lists,
f64 coordinates are exact rationals, and the SQL age computation of
`lookup_cache` is carried on each cache entry. -/

/-- places.rs `PlacesErrorKind`. -/
inductive PlacesErrorKind
  | Quota
  | InvalidKey
  | Network
  | Other
deriving DecidableEq, Repr

/-- places.rs `ResolutionSource`. -/
inductive ResolutionSource
  | Provided
  | Cache
  | PlacesTable
  | Api
deriving DecidableEq, Repr

/-- places.rs `CacheOutcome`. -/
inductive CacheOutcome
  | Fresh (place_id : String)
  | Stale (place_id : String)
  | Miss
  | Skipped
deriving DecidableEq, Repr

/-- Mirrors the `matches!(_, CacheOutcome::Stale(_))` test in `normalize_row`. -/
def CacheOutcome.isStale : CacheOutcome → Bool
  | .Stale _ => true
  | _ => false

/-- places.rs `PlaceDetails` (doubles as a row of the `places` table). -/
structure PlaceDetails where
  place_id : String
  name : String
  formatted_address : Option String
  lat : ℚ
  lng : ℚ
  types : List String
deriving DecidableEq, Repr

/-- ingestion.rs `NormalizedRow`. -/
structure NormalizedRow where
  title : String
  description : Option String
  longitude : ℚ
  latitude : ℚ
  altitude : Option ℚ
  place_id : Option String
  raw_coordinates : String
  layer_path : Option String
deriving DecidableEq, Repr

/-- places.rs `RawRow`. -/
structure RawRow where
  source_hash : String
  row : NormalizedRow
deriving DecidableEq, Repr

/-- places.rs `NormalizationResult`. -/
structure NormalizationResult where
  source : ResolutionSource
  details : PlaceDetails
  cache_outcome : CacheOutcome
deriving DecidableEq, Repr

/-- places.rs `PlaceDetails::ensure_coordinates`. -/
def PlaceDetails.ensure_coordinates (d : PlaceDetails) (row : NormalizedRow) : PlaceDetails :=
  if d.lat = 0 ∧ d.lng = 0 then { d with lat := row.latitude, lng := row.longitude } else d

/-- places.rs `details_from_row`. -/
def details_from_row (row : NormalizedRow) (place_id : String) : PlaceDetails :=
  ⟨place_id, row.title, row.description, row.latitude, row.longitude, []⟩

/-- places.rs `cache_ttl_from_hours`: 0 disables the TTL, otherwise hours are
converted to seconds with u64 saturating multiplication. -/
def cache_ttl_from_hours (hours : Nat) : Option Nat :=
  if hours = 0 then none else some (min (hours * 3600) (2 ^ 64 - 1))

/-- A `normalization_cache` row; `age_secs` is the value the SQL expression
`(julianday('now') - julianday(created_at)) * 86400.0` reports for it. -/
structure CacheEntry where
  source_row_hash : String
  place_id : String
  age_secs : ℚ
deriving DecidableEq, Repr

/-- places.rs `lookup_cache` over a snapshot of the `normalization_cache`
table: a missing entry is a `Miss`; with no TTL any entry is `Fresh`;
otherwise an entry older than the TTL is `Stale`. -/
def lookup_cache (cache_ttl : Option Nat) (cache : List CacheEntry) (source_hash : String) :
    CacheOutcome :=
  match cache.find? fun e => e.source_row_hash == source_hash with
  | none => .Miss
  | some entry =>
    match cache_ttl with
    | none => .Fresh entry.place_id
    | some ttl_secs =>
      if entry.age_secs > (ttl_secs : ℚ) then .Stale entry.place_id else .Fresh entry.place_id

/-- places.rs `load_place_by_id` over a snapshot of the `places` table. -/
def load_place_by_id (places : List PlaceDetails) (place_id : String) : Option PlaceDetails :=
  places.find? fun p => p.place_id == place_id

/-- Inputs of one `normalize_row` call: snapshots of the two tables it reads,
the result of the `lookup_coordinates` neighborhood query, and the outcome of
`lookup_with_retry` were the remote tier reached. -/
structure NormalizeEnv where
  places : List PlaceDetails
  cache : List CacheEntry
  geoHit : Option PlaceDetails
  remote : Except AppError PlaceDetails

/-- Result of one `normalize_row` call together with which tiers ran. -/
structure NormalizeRowTrace where
  result : Except AppError (Option NormalizationResult)
  geoConsulted : Bool
  remoteCalled : Bool

/-- The remote tier at the end of places.rs `normalize_row`: on success wrap
the details (falling back to the row's coordinates) keeping a `Stale` marker,
on failure propagate the error. -/
def remote_step (env : NormalizeEnv) (entry : RawRow) (cache_marker : CacheOutcome)
    (geoConsulted : Bool) : NormalizeRowTrace :=
  match env.remote with
  | .ok details =>
    let finalized := details.ensure_coordinates entry.row
    let outcome :=
      match cache_marker with
      | .Stale v => CacheOutcome.Stale v
      | _ => CacheOutcome.Miss
    ⟨.ok (some ⟨.Api, finalized, outcome⟩), geoConsulted, true⟩
  | .error e => ⟨.error e, geoConsulted, true⟩

/-- places.rs `normalize_row`: provided place_id short-circuit, then the cache
tier, then (unless the cache entry was stale) the geographic tier, then the
remote tier. -/
def normalize_row (cache_ttl : Option Nat) (env : NormalizeEnv) (entry : RawRow) :
    NormalizeRowTrace :=
  match entry.row.place_id with
  | some place_id =>
    let details := (load_place_by_id env.places place_id).getD (details_from_row entry.row place_id)
    ⟨.ok (some ⟨.Provided, details, .Skipped⟩), false, false⟩
  | none =>
    match lookup_cache cache_ttl env.cache entry.source_hash with
    | .Fresh place_id =>
      let details :=
        (load_place_by_id env.places place_id).getD (details_from_row entry.row place_id)
      ⟨.ok (some ⟨.Cache, details, .Fresh place_id⟩), false, false⟩
    | marker =>
      if marker.isStale then remote_step env entry marker false
      else
        match env.geoHit with
        | some details => ⟨.ok (some ⟨.PlacesTable, details, .Fresh details.place_id⟩), true, false⟩
        | none => remote_step env entry marker true

/-- places.rs `NormalizationStats` (sans slot and process-wide counters). -/
structure NormalizationStats where
  total_rows : Nat
  cache_hits : Nat
  cache_misses : Nat
  stale_cache : Nat
  places_calls : Nat
  resolved : Nat
  unresolved : Nat
deriving DecidableEq, Repr

/-- places.rs `NormalizationStats::with_total`. -/
def NormalizationStats.with_total (total : Nat) : NormalizationStats :=
  ⟨total, 0, 0, 0, 0, 0, 0⟩

/-- The per-row stats bookkeeping in the loop body of places.rs
`normalize_slot`. -/
def apply_row_result (stats : NormalizationStats)
    (res : Except AppError (Option NormalizationResult)) : NormalizationStats :=
  match res with
  | .ok (some result) =>
    let stats :=
      match result.cache_outcome with
      | .Fresh _ => { stats with cache_hits := stats.cache_hits + 1 }
      | .Stale _ =>
        { stats with cache_misses := stats.cache_misses + 1, stale_cache := stats.stale_cache + 1 }
      | .Miss => { stats with cache_misses := stats.cache_misses + 1 }
      | .Skipped => stats
    let stats :=
      if result.source = .Api then { stats with places_calls := stats.places_calls + 1 } else stats
    { stats with resolved := stats.resolved + 1 }
  | .ok none => { stats with unresolved := stats.unresolved + 1 }
  | .error _ => { stats with unresolved := stats.unresolved + 1 }

/-- Number of rows the loop of `normalize_slot` handles before stopping, with
the cancel flag modelled as reading false before read index `trip` and true
from it on (`none` = never tripped); the flag is read once at the top of each
row. -/
def processed_rows (total : Nat) (trip : Option Nat) : Nat :=
  match trip with
  | none => total
  | some t => min t total

/-- The row loop and post-loop cancellation accounting of places.rs
`normalize_slot`: `results` are the `normalize_row` outcomes in row order;
after the loop, if the flag is set and rows remain, the remaining rows are
added to `unresolved`. -/
def normalize_slot_loop (results : List (Except AppError (Option NormalizationResult)))
    (trip : Option Nat) : NormalizationStats :=
  let total := results.length
  let processed := processed_rows total trip
  let base := (results.take processed).foldl apply_row_result (.with_total total)
  if trip.isSome ∧ processed < total then
    { base with unresolved := base.unresolved + (total - processed) }
  else base

/-! Retry and backoff (places.rs `lookup_with_retry`, `backoff_delay`,
`classify_places_error`). Lookup outcomes are a function of the 1-based
attempt number; `StdRng::gen_range(0..BASE_BACKOFF_MS)` is modelled as a draw
from an arbitrary stream reduced mod `BASE_BACKOFF_MS`. -/

/-- places.rs `MAX_ATTEMPTS`. -/
def MAX_ATTEMPTS : Nat := 5

/-- places.rs `BASE_BACKOFF_MS`. -/
def BASE_BACKOFF_MS : Nat := 250

/-- places.rs `classify_places_error`. -/
def classify_places_error (err : AppError) : PlacesErrorKind :=
  match err with
  | .Http http_err =>
    if http_err.is_timeout || http_err.is_connect then .Network
    else
      match http_err.status with
      | some status =>
        if status == 429 || status == 503 then .Quota
        else if status == 401 || status == 403 || status == 402 then .InvalidKey
        else .Other
      | none => .Other
  | _ => .Other

/-- places.rs `backoff_delay` in milliseconds: `250 * 2^min(attempt-1, 6)`
plus a jitter drawn from `[0, 250)`. -/
def backoff_delay (js : Nat → Nat) (attempt : Nat) : Nat :=
  let exponent := min (attempt - 1) 6
  BASE_BACKOFF_MS * 2 ^ exponent + js attempt % BASE_BACKOFF_MS

/-- Observable outcome of `lookup_with_retry`: final result, number of
`lookup_place` calls issued, and the backoff delays slept between attempts. -/
structure RetryTrace where
  result : Except AppError PlaceDetails
  attempts : Nat
  delays : List Nat
deriving Repr

/-- places.rs `lookup_with_retry` unrolled from the given 1-based attempt
number: try the lookup; on failure, if attempts remain and the error is not
`InvalidKey`, sleep a backoff delay and retry, otherwise propagate. -/
def lookup_retry_from (responses : Nat → Except AppError PlaceDetails) (js : Nat → Nat)
    (attempt : Nat) : RetryTrace :=
  match responses attempt with
  | .ok d => ⟨.ok d, attempt, []⟩
  | .error e =>
    if h : attempt < MAX_ATTEMPTS then
      if classify_places_error e = .InvalidKey then ⟨.error e, attempt, []⟩
      else
        let rest := lookup_retry_from responses js (attempt + 1)
        ⟨rest.result, rest.attempts, backoff_delay js attempt :: rest.delays⟩
    else ⟨.error e, attempt, []⟩
termination_by MAX_ATTEMPTS - attempt
decreasing_by omega

/-- places.rs `lookup_with_retry` (attempts start at 1). -/
def lookup_with_retry (responses : Nat → Except AppError PlaceDetails) (js : Nat → Nat) :
    RetryTrace :=
  lookup_retry_from responses js 1

/-! Drive file download verification. -/

/-- lib.rs's `download` result shape: bytes, received count, computed MD5 and
the expected size echoed back. -/
structure DriveDownload where
  bytes : List Nat
  received_bytes : Nat
  checksum_md5 : String
  expected_bytes : Option Nat
deriving DecidableEq, Repr

/-- Part of the spec-modelled verifying fetcher below: a supplied expected
checksum differing from the computed MD5. -/
def checksum_mismatch (md5sum : String) (expected_checksum : Option String) : Bool :=
  match expected_checksum with
  | some c => c != md5sum
  | none => false

/-- Part of the spec-modelled verifying fetcher below: a supplied expected
size differing from the received byte count. -/
def size_mismatch (received : Nat) (expected_size : Option Nat) : Bool :=
  match expected_size with
  | some s => s != received
  | none => false

/-- Modelled from the spec: the checksum-verifying Drive fetcher is not under
src (google.rs only holds a two-argument `download_file` without any
verification, while lib.rs and the integration test call a five-argument
variant returning bytes, received count, MD5 and expected size). Per the
spec, on completion it computes MD5 over the received bytes; if
`expected_checksum` was supplied and differs it fails
`Parse "checksum mismatch"`, and if `expected_size` was supplied and the
received count differs it fails the same way. `md5` abstracts the digest. -/
def download_file (md5 : List Nat → String) (bytes : List Nat)
    (expected_size : Option Nat) (expected_checksum : Option String) :
    Except AppError DriveDownload :=
  let checksum := md5 bytes
  let received := bytes.length
  if checksum_mismatch checksum expected_checksum || size_mismatch received expected_size then
    .error (.Parse "checksum mismatch")
  else .ok ⟨bytes, received, checksum, expected_size⟩

/-! Comparison engine (comparison.rs) over a relational snapshot. -/

/-- ingestion.rs `ListSlot`. -/
inductive ListSlot
  | A
  | B
deriving DecidableEq, Repr, BEq

/-- A `lists` row restricted to the columns the comparison engine reads. -/
structure ListRow where
  id : Int
  project_id : Int
  slot : ListSlot
deriving DecidableEq, Repr

/-- Snapshot of the tables `compute_snapshot` reads: `comparison_projects`
(id, name), `lists`, `list_places` (list_id, place_id), `raw_items`
(list_id, source_row_hash), `normalization_cache` (source_row_hash, place_id)
and `places`. -/
structure CompDb where
  projects : List (Int × String)
  lists : List ListRow
  list_places : List (Int × String)
  raw_items : List (Int × String)
  cache : List (String × String)
  places : List PlaceDetails

/-- comparison.rs `ComparisonSegment`. -/
inductive ComparisonSegment
  | Overlap
  | OnlyA
  | OnlyB
deriving DecidableEq, Repr

/-- comparison.rs `segment_lists`. -/
def segment_lists : ComparisonSegment → List ListSlot
  | .Overlap => [.A, .B]
  | .OnlyA => [.A]
  | .OnlyB => [.B]

/-- comparison.rs `list_id`: the first `lists` row for the project and slot. -/
def list_id (db : CompDb) (project_id : Int) (slot : ListSlot) : Option Int :=
  (db.lists.find? fun l => l.project_id == project_id && l.slot == slot).map (·.id)

/-- comparison.rs `count_places`: `COUNT(*)` of `list_places` for the list,
zero when the list is absent. -/
def count_places (db : CompDb) (lid : Option Int) : Nat :=
  match lid with
  | none => 0
  | some l => (db.list_places.filter fun p => p.1 == l).length

/-- comparison.rs `pending_count`: raw items of the list whose
`source_row_hash` has no `normalization_cache` entry, zero when absent. -/
def pending_count (db : CompDb) (lid : Option Int) : Nat :=
  match lid with
  | none => 0
  | some l =>
    (db.raw_items.filter fun ri =>
      ri.1 == l && (db.cache.find? fun c => c.1 == ri.2).isNone).length

/-- Membership of a place in a (possibly absent) list. -/
def member_place (db : CompDb) (lid : Option Int) (pid : String) : Bool :=
  match lid with
  | none => false
  | some l => db.list_places.any fun p => p.1 == l && p.2 == pid

/-- Modelled from the spec: the relations `comparison_overlap`,
`comparison_only_a` and `comparison_only_b` queried by `count_segment` and
`load_segment` are created nowhere under src (`run_migrations` creates no
such table or view). Per the spec they are SQL set operations over ListPlace:
Overlap holds the place_ids present in both lists A and B of the project,
OnlyA/OnlyB those present in one list and not the other, each joined with the
`places` columns. -/
def segment_rows (db : CompDb) (project_id : Int) (segment : ComparisonSegment) :
    List PlaceDetails :=
  let la := list_id db project_id .A
  let lb := list_id db project_id .B
  db.places.filter fun p =>
    match segment with
    | .Overlap => member_place db la p.place_id && member_place db lb p.place_id
    | .OnlyA => member_place db la p.place_id && ! member_place db lb p.place_id
    | .OnlyB => member_place db lb p.place_id && ! member_place db la p.place_id

/-- comparison.rs `count_segment` over the modelled segment relation. -/
def count_segment (db : CompDb) (project_id : Int) (segment : ComparisonSegment) : Nat :=
  (segment_rows db project_id segment).length

/-- comparison.rs `ComparisonPagination`. -/
structure ComparisonPagination where
  page : Nat
  page_size : Nat
deriving DecidableEq, Repr

/-- comparison.rs `DEFAULT_PAGE_SIZE`. -/
def DEFAULT_PAGE_SIZE : Nat := 200

/-- comparison.rs `MAX_PAGE_SIZE`. -/
def MAX_PAGE_SIZE : Nat := 1000

/-- comparison.rs `ComparisonPagination::new`. -/
def ComparisonPagination.mk_sanitized (page page_size : Option Nat) : ComparisonPagination :=
  ⟨(page.getD 1).max 1, ((page_size.getD DEFAULT_PAGE_SIZE).max 1).min MAX_PAGE_SIZE⟩

/-- comparison.rs `ComparisonPagination::with_total`. -/
def ComparisonPagination.with_total (p : ComparisonPagination) (total : Nat) :
    ComparisonPagination :=
  if total = 0 then ⟨1, p.page_size⟩
  else
    let pages := (total + p.page_size - 1) / p.page_size
    ⟨(min p.page pages).max 1, p.page_size⟩

/-- comparison.rs `ComparisonPagination::offset` (usize saturating). -/
def ComparisonPagination.offset (p : ComparisonPagination) : Nat :=
  (p.page - 1) * p.page_size

/-- comparison.rs `PlaceComparisonRow`. -/
structure PlaceComparisonRow where
  place : PlaceDetails
  lists : List ListSlot
deriving DecidableEq, Repr

/-- comparison.rs `ComparisonSegmentPage`. -/
structure ComparisonSegmentPage where
  rows : List PlaceComparisonRow
  total : Nat
  page : Nat
  page_size : Nat
deriving DecidableEq, Repr

/-- comparison.rs `ComparisonStats`. -/
structure ComparisonStats where
  list_a_count : Nat
  list_b_count : Nat
  overlap_count : Nat
  only_a_count : Nat
  only_b_count : Nat
  pending_a : Nat
  pending_b : Nat
deriving DecidableEq, Repr

/-- The `ORDER BY name COLLATE NOCASE` of the segment query. -/
def sort_by_name_nocase (rows : List PlaceDetails) : List PlaceDetails :=
  rows.insertionSort fun a b => a.name.toLower ≤ b.name.toLower

/-- comparison.rs `load_segment`: count, sort case-insensitively by name,
apply the (re-capped) pagination window, and tag each row with the segment's
slots. -/
def load_segment (db : CompDb) (project_id : Int) (segment : ComparisonSegment)
    (pagination : Option ComparisonPagination) : ComparisonSegmentPage :=
  let total := count_segment db project_id segment
  let lists := segment_lists segment
  let effective := pagination.map (·.with_total total)
  let sorted := sort_by_name_nocase (segment_rows db project_id segment)
  let rows :=
    match effective with
    | some paging => (sorted.drop paging.offset).take paging.page_size
    | none => sorted
  let rows := rows.map fun p => (⟨p, lists⟩ : PlaceComparisonRow)
  let paging :=
    match effective with
    | some p => (p.page, p.page_size)
    | none => (1, max total 1)
  ⟨rows, total, paging.1, paging.2⟩

/-- comparison.rs `ComparisonSnapshot` (project info flattened to id, name). -/
structure ComparisonSnapshot where
  project : Int × String
  stats : ComparisonStats
  list_a_id : Option Int
  list_b_id : Option Int
  overlap : ComparisonSegmentPage
  only_a : ComparisonSegmentPage
  only_b : ComparisonSegmentPage
deriving DecidableEq, Repr

/-- comparison.rs `project_info`: `query_row` yields
`QueryReturnedNoRows` for a missing project. -/
def project_info (db : CompDb) (project_id : Int) : Except AppError (Int × String) :=
  match db.projects.find? fun p => p.1 == project_id with
  | some p => .ok p
  | none => .error (.Database .queryReturnedNoRows)

/-- comparison.rs `compute_snapshot`. -/
def compute_snapshot (db : CompDb) (project_id : Int)
    (pagination : Option ComparisonPagination) : Except AppError ComparisonSnapshot :=
  match project_info db project_id with
  | .error e => .error e
  | .ok project =>
    let la := list_id db project_id .A
    let lb := list_id db project_id .B
    let stats : ComparisonStats :=
      ⟨count_places db la, count_places db lb,
        count_segment db project_id .Overlap, count_segment db project_id .OnlyA,
        count_segment db project_id .OnlyB, pending_count db la, pending_count db lb⟩
    let overlap_page := pagination.map (·.with_total stats.overlap_count)
    let only_a_page := pagination.map (·.with_total stats.only_a_count)
    let only_b_page := pagination.map (·.with_total stats.only_b_count)
    .ok ⟨project, stats, la, lb,
      load_segment db project_id .Overlap overlap_page,
      load_segment db project_id .OnlyA only_a_page,
      load_segment db project_id .OnlyB only_b_page⟩

/-! Telemetry buffer rotation (telemetry.rs). The primary buffer file is its
size in bytes; rotated siblings are their mtimes. -/

/-- The two `TelemetryClient` fields driving rotation. -/
structure TelemetryConfig where
  max_file_bytes : Nat
  max_file_count : Nat
deriving DecidableEq, Repr

/-- On-disk state of the telemetry buffer directory. -/
structure BufferFs where
  primary : Nat
  rotations : List Nat
deriving DecidableEq, Repr

/-- Rotated siblings kept and deleted by one `prune_rotations` run. -/
structure PruneResult where
  kept : List Nat
  deleted : List Nat
deriving DecidableEq, Repr

/-- telemetry.rs `prune_rotations`: sort the rotated siblings by mtime and
delete the oldest ones beyond `max_file_count - 1`. -/
def prune_rotations (max_file_count : Nat) (rotations : List Nat) : PruneResult :=
  let sorted := rotations.insertionSort (· ≤ ·)
  let allowed := max_file_count - 1
  if sorted.length > allowed then
    let excess := sorted.length - allowed
    ⟨sorted.drop excess, sorted.take excess⟩
  else ⟨rotations, []⟩

/-- Outcome of `rotate_if_needed`/`write_batch`: the directory state, whether
the primary was renamed to a rotated sibling, and the pruned files. -/
structure RotateResult where
  fs : BufferFs
  rotated : Bool
  deleted : List Nat
deriving DecidableEq, Repr

/-- telemetry.rs `rotate_if_needed`: no-op while the batch still fits; with
`max_file_count <= 1` truncate the primary in place; otherwise rename the
primary to a timestamped sibling (mtime `now`), prune, and truncate. -/
def rotate_if_needed (cfg : TelemetryConfig) (fs : BufferFs) (incoming_bytes now : Nat) :
    RotateResult :=
  if fs.primary + incoming_bytes ≤ cfg.max_file_bytes then ⟨fs, false, []⟩
  else if cfg.max_file_count ≤ 1 then ⟨⟨0, fs.rotations⟩, false, []⟩
  else
    let pruned := prune_rotations cfg.max_file_count (fs.rotations ++ [now])
    ⟨⟨0, pruned.kept⟩, true, pruned.deleted⟩

/-- telemetry.rs `write_batch` (the batch abstracted to its encoded byte
count, newlines included, as computed by `encode_batch`): rotate if needed,
then append the batch to the primary file. -/
def write_batch (cfg : TelemetryConfig) (fs : BufferFs) (incoming_bytes now : Nat) :
    RotateResult :=
  let r := rotate_if_needed cfg fs incoming_bytes now
  ⟨⟨r.fs.primary + incoming_bytes, r.fs.rotations⟩, r.rotated, r.deleted⟩

/-! Theorems. -/

/-- A file accepted by `assert_encrypted` exists and its first 16 bytes are
not the plaintext magic. -/
theorem assert_encrypted_ok_shape (file : Option (List Nat))
    (h : assert_encrypted file = .ok ()) :
    ∃ bytes, file = some bytes ∧ bytes.take 16 ≠ SQLITE_MAGIC := by
  match file with
  | none => simp [assert_encrypted] at h
  | some bytes =>
    refine ⟨bytes, rfl, ?_⟩
    intro hmagic
    have hl := congrArg List.length hmagic
    rw [List.length_take] at hl
    have hlen : 16 ≤ bytes.length := by
      simp only [SQLITE_MAGIC, List.length_cons, List.length_nil] at hl
      omega
    have hzero : 16 - bytes.length = 0 := by omega
    rw [assert_encrypted, if_pos] at h
    · exact Except.noConfusion h
    · refine ⟨by omega, ?_⟩
      rw [hzero, List.replicate_zero, List.append_nil, hmagic]

/-- A file whose first 16 bytes are the plaintext magic makes
`assert_encrypted` fail with the plaintext-header `Config` error. -/
theorem assert_encrypted_plaintext (bytes : List Nat) (hmagic : bytes.take 16 = SQLITE_MAGIC) :
    assert_encrypted (some bytes) =
      .error (.Config "database header is plaintext; SQLCipher key not applied") := by
  have hl := congrArg List.length hmagic
  rw [List.length_take] at hl
  have hlen : 16 ≤ bytes.length := by
    simp only [SQLITE_MAGIC, List.length_cons, List.length_nil] at hl
    omega
  have hzero : 16 - bytes.length = 0 := by omega
  rw [assert_encrypted, if_pos]
  refine ⟨by omega, ?_⟩
  rw [hzero, List.replicate_zero, List.append_nil, hmagic]

/-- Success of `establish_context_with_mode` pins the open step's file and
the encryption check. -/
theorem establish_context_with_mode_ok (om : Except AppError (Option (List Nat)))
    (file : Option (List Nat)) (h : establish_context_with_mode om = .ok file) :
    om = .ok file ∧ assert_encrypted file = .ok () := by
  unfold establish_context_with_mode at h
  split at h
  · exact Except.noConfusion h
  · rename_i f
    split at h
    · exact Except.noConfusion h
    · rename_i u heq
      cases h
      exact ⟨rfl, by cases u; exact heq⟩

/-- Success of `establish_context` yields a file passing the encryption
check. -/
theorem establish_context_ok (o1 o2 : Except AppError (Option (List Nat)))
    (file : Option (List Nat)) (h : establish_context o1 o2 = .ok file) :
    ∃ bytes, file = some bytes ∧ bytes.take 16 ≠ SQLITE_MAGIC := by
  unfold establish_context at h
  split at h
  · rename_i heq
    cases h
    exact assert_encrypted_ok_shape _ (establish_context_with_mode_ok _ _ heq).2
  · split at h
    · exact assert_encrypted_ok_shape _ (establish_context_with_mode_ok _ _ h).2
    · exact Except.noConfusion h

/-- C1: a successful `bootstrap` returns a database context whose file exists
and whose first 16 bytes differ from the plaintext SQLite magic
`SQLite format 3\0`; and when the file after opening and migrating carries
the plaintext magic header, `bootstrap` fails with the plaintext-header
`Config` error. -/
theorem bootstrap_header_never_plaintext
    (open1 open1R open2 open2R : Except AppError (Option (List Nat)))
    (dbExists : Bool) (lifecycle : SecretLifecycle) :
    (∀ outcome acts,
      bootstrap open1 open1R open2 open2R dbExists lifecycle = (.ok outcome, acts) →
      ∃ bytes, outcome.context = some bytes ∧ bytes.take 16 ≠ SQLITE_MAGIC) ∧
    (∀ bytes, open1 = .ok (some bytes) → bytes.take 16 = SQLITE_MAGIC →
      (bootstrap open1 open1R open2 open2R dbExists lifecycle).1 =
        .error (.Config "database header is plaintext; SQLCipher key not applied")) := by
  constructor
  · intro outcome acts h
    unfold bootstrap at h
    split at h
    · rename_i ctx heq
      cases h
      exact establish_context_ok _ _ _ heq
    · rename_i e heq
      split at h
      · rename_i err
        split at h
        · split at h
          · rename_i ctx heq2
            cases h
            exact establish_context_ok _ _ _ heq2
          · exact Prod.noConfusion h fun h1 _ => Except.noConfusion h1
        · exact Prod.noConfusion h fun h1 _ => Except.noConfusion h1
      · exact Prod.noConfusion h fun h1 _ => Except.noConfusion h1
  · intro bytes hopen hmagic
    have hmode : establish_context_with_mode open1 =
        .error (.Config "database header is plaintext; SQLCipher key not applied") := by
      rw [hopen, establish_context_with_mode, assert_encrypted_plaintext bytes hmagic]
    have hctx : establish_context open1 open1R =
        .error (.Config "database header is plaintext; SQLCipher key not applied") := by
      rw [establish_context, hmode]
      simp [is_memory_security_error]
    rw [bootstrap, hctx]

/-- Witness for `bootstrap_header_never_plaintext` at concrete inputs. -/
theorem bootstrap_header_never_plaintext_witness :
    (∃ bytes, (⟨some [1], SecretLifecycle.Created, false⟩ : BootstrapOutcome).context =
        some bytes ∧ bytes.take 16 ≠ SQLITE_MAGIC) ∧
    (bootstrap (.ok (some SQLITE_MAGIC)) (.ok none) (.ok none) (.ok none) true
        SecretLifecycle.Created).1 =
      .error (.Config "database header is plaintext; SQLCipher key not applied") := by
  constructor
  · exact (bootstrap_header_never_plaintext (.ok (some [1])) (.ok none) (.ok none) (.ok none)
      true SecretLifecycle.Created).1 ⟨some [1], SecretLifecycle.Created, false⟩ noActions rfl
  · exact (bootstrap_header_never_plaintext (.ok (some SQLITE_MAGIC)) (.ok none) (.ok none)
      (.ok none) true SecretLifecycle.Created).2 SQLITE_MAGIC rfl rfl

/-- The recoverable class of `should_attempt_recovery`, spelled out: a
`SqliteFailure` with code `NotADatabase` or `SystemIoFailure`, or whose
message contains "encrypted" or "database disk image is malformed", while the
database file exists. -/
theorem should_attempt_recovery_characterization (err : SqliteError) (dbExists : Bool) :
    should_attempt_recovery err dbExists = true ↔
      (dbExists = true ∧ ∃ code message, err = .sqliteFailure code message ∧
        (code = .NotADatabase ∨ code = .SystemIoFailure ∨
          ∃ msg, message = some msg ∧
            (strContains msg "encrypted" = true ∨
              strContains msg "database disk image is malformed" = true))) := by
  cases dbExists with
  | false => simp [should_attempt_recovery]
  | true =>
    cases err with
    | sqliteFailure code message =>
      cases code <;> cases message <;>
          simp [should_attempt_recovery, recoverable_code, recoverable_message] <;>
        first
        | exact ⟨_, _, ⟨rfl, rfl⟩, Or.inl rfl⟩
        | exact ⟨_, _, ⟨rfl, rfl⟩, Or.inr (Or.inl rfl)⟩
        | (constructor
           · intro h
             exact ⟨_, _, ⟨rfl, rfl⟩, Or.inr (Or.inr ⟨_, rfl, h⟩)⟩
           · rintro ⟨c, m, ⟨hc, hm⟩, hdis⟩
             subst hc
             subst hm
             rcases hdis with h | h | ⟨msg, hmsg, h⟩
             · exact absurd h (by decide)
             · exact absurd h (by decide)
             · cases hmsg
               exact h)
    | queryReturnedNoRows => simp [should_attempt_recovery]
    | otherVariant => simp [should_attempt_recovery]

/-- Shape of `bootstrap` after a recoverable first failure: all three files
are deleted, the key rotates exactly when it was `Retrieved`, and the single
retry decides the result. -/
theorem bootstrap_recovery_eq
    (open1 open1R open2 open2R : Except AppError (Option (List Nat)))
    (dbExists : Bool) (lifecycle : SecretLifecycle) (err : SqliteError)
    (h1 : establish_context open1 open1R = .error (.Database err))
    (h2 : should_attempt_recovery err dbExists = true) :
    bootstrap open1 open1R open2 open2R dbExists lifecycle =
      (match establish_context open2 open2R with
        | .ok ctx => .ok ⟨ctx,
            if lifecycle = SecretLifecycle.Retrieved then SecretLifecycle.Rotated else lifecycle,
            true⟩
        | .error e2 => .error e2,
       ⟨true, true, true, decide (lifecycle = SecretLifecycle.Retrieved)⟩) := by
  rw [bootstrap, h1]
  simp only [h2, if_true]
  cases establish_context open2 open2R with
  | ok ctx => by_cases hr : lifecycle = SecretLifecycle.Retrieved <;> simp [hr]
  | error e2 => rfl

/-- C2: when the first open-and-migrate attempt fails with a recoverable
database error and the file exists, `bootstrap` deletes the database file and
its wal/shm companions, rotates the key exactly when the lifecycle was
`Retrieved`, and retries once, returning `recovered = true` on success and
the retry's error on failure; a first-attempt error outside the class
propagates unchanged with no recovery action; and the recoverable class is
exactly a SQLite failure with code `NotADatabase`/`SystemIoFailure` or an
"encrypted"/"database disk image is malformed" message, with the file
present. -/
theorem bootstrap_recovery_policy
    (open1 open1R open2 open2R : Except AppError (Option (List Nat)))
    (dbExists : Bool) (lifecycle : SecretLifecycle) :
    (∀ err, establish_context open1 open1R = .error (.Database err) →
      should_attempt_recovery err dbExists = true →
      (bootstrap open1 open1R open2 open2R dbExists lifecycle).2 =
          ⟨true, true, true, decide (lifecycle = SecretLifecycle.Retrieved)⟩ ∧
        (∀ ctx, establish_context open2 open2R = .ok ctx →
          (bootstrap open1 open1R open2 open2R dbExists lifecycle).1 =
            .ok ⟨ctx,
              if lifecycle = SecretLifecycle.Retrieved then SecretLifecycle.Rotated
              else lifecycle, true⟩) ∧
        (∀ e2, establish_context open2 open2R = .error e2 →
          (bootstrap open1 open1R open2 open2R dbExists lifecycle).1 = .error e2)) ∧
    (∀ e, establish_context open1 open1R = .error e →
      (∀ err, e = .Database err → should_attempt_recovery err dbExists = false) →
      bootstrap open1 open1R open2 open2R dbExists lifecycle = (.error e, noActions)) ∧
    (∀ err d, should_attempt_recovery err d = true ↔
      (d = true ∧ ∃ code message, err = .sqliteFailure code message ∧
        (code = .NotADatabase ∨ code = .SystemIoFailure ∨
          ∃ msg, message = some msg ∧
            (strContains msg "encrypted" = true ∨
              strContains msg "database disk image is malformed" = true)))) := by
  refine ⟨?_, ?_, fun err d => should_attempt_recovery_characterization err d⟩
  · intro err h1 h2
    have heq := bootstrap_recovery_eq open1 open1R open2 open2R dbExists lifecycle err h1 h2
    refine ⟨by rw [heq], ?_, ?_⟩
    · intro ctx h3
      rw [heq, h3]
    · intro e2 h3
      rw [heq, h3]
  · intro e h1 hclass
    rw [bootstrap, h1]
    cases e with
    | Database err =>
      have hf := hclass err rfl
      simp [hf]
    | Path msg => rfl
    | IoErr => rfl
    | Keychain => rfl
    | Json => rfl
    | Http he => rfl
    | Config msg => rfl
    | Parse msg => rfl

/-- Witness for `bootstrap_recovery_policy` at concrete inputs. -/
theorem bootstrap_recovery_policy_witness :
    (bootstrap (.error (.Database (.sqliteFailure .NotADatabase none))) (.ok none)
        (.ok (some [1])) (.ok none) true SecretLifecycle.Retrieved).2 =
      ⟨true, true, true, decide (SecretLifecycle.Retrieved = SecretLifecycle.Retrieved)⟩ ∧
    (bootstrap (.error (.Database (.sqliteFailure .NotADatabase none))) (.ok none)
        (.ok (some [1])) (.ok none) true SecretLifecycle.Retrieved).1 =
      .ok ⟨some [1],
        if SecretLifecycle.Retrieved = SecretLifecycle.Retrieved then SecretLifecycle.Rotated
        else SecretLifecycle.Retrieved, true⟩ := by
  have h := bootstrap_recovery_policy (.error (.Database (.sqliteFailure .NotADatabase none)))
    (.ok none) (.ok (some [1])) (.ok none) true SecretLifecycle.Retrieved
  have h1 := h.1 (.sqliteFailure .NotADatabase none) rfl (by decide)
  exact ⟨h1.1, h1.2.1 (some [1]) rfl⟩

/-- C3 (failing input): with `comparison_projects` holding only project 1
(active), `set_active_project` with the absent id 2 returns ok — the UPDATE
touches every row, so `affected` is 1, not 0 — and leaves zero rows with
`is_active = 1`. -/
theorem set_active_missing_id_zero_active :
    set_active_project [⟨1, true⟩] 2 = .ok [⟨1, false⟩] ∧ countActive [⟨1, false⟩] = 0 :=
  ⟨rfl, by decide⟩

/-- C4 (amended): for a row without a provided place_id, a fresh cache entry
resolves from the cache, issues no remote lookup and counts as a cache hit; a
stale entry skips the geographic tier and issues a remote lookup, and when
that lookup succeeds the row counts in both `cache_misses` and `stale_cache`,
while a failed lookup counts the row as unresolved instead. -/
theorem normalize_cache_tier_policy (ttl : Option Nat) (env : NormalizeEnv) (entry : RawRow)
    (hpid : entry.row.place_id = none) :
    (∀ pid, lookup_cache ttl env.cache entry.source_hash = .Fresh pid →
      (normalize_row ttl env entry).remoteCalled = false ∧
      (normalize_row ttl env entry).result =
        .ok (some ⟨.Cache,
          (load_place_by_id env.places pid).getD (details_from_row entry.row pid), .Fresh pid⟩) ∧
      (∀ stats,
        (apply_row_result stats (normalize_row ttl env entry).result).cache_hits =
            stats.cache_hits + 1 ∧
          (apply_row_result stats (normalize_row ttl env entry).result).resolved =
            stats.resolved + 1)) ∧
    (∀ pid, lookup_cache ttl env.cache entry.source_hash = .Stale pid →
      (normalize_row ttl env entry).geoConsulted = false ∧
      (normalize_row ttl env entry).remoteCalled = true ∧
      (∀ d, env.remote = .ok d → ∀ stats,
        (apply_row_result stats (normalize_row ttl env entry).result).cache_misses =
            stats.cache_misses + 1 ∧
          (apply_row_result stats (normalize_row ttl env entry).result).stale_cache =
            stats.stale_cache + 1) ∧
      (∀ e, env.remote = .error e → ∀ stats,
        (apply_row_result stats (normalize_row ttl env entry).result).unresolved =
          stats.unresolved + 1)) := by
  constructor
  · intro pid hfresh
    have hrow : normalize_row ttl env entry =
        ⟨.ok (some ⟨.Cache,
          (load_place_by_id env.places pid).getD (details_from_row entry.row pid), .Fresh pid⟩),
          false, false⟩ := by
      simp [normalize_row, hpid, hfresh]
    rw [hrow]
    exact ⟨rfl, rfl, fun stats => by simp [apply_row_result]⟩
  · intro pid hstale
    have hrow : normalize_row ttl env entry = remote_step env entry (.Stale pid) false := by
      simp [normalize_row, hpid, hstale, CacheOutcome.isStale]
    rw [hrow]
    refine ⟨?_, ?_, ?_, ?_⟩
    · cases h : env.remote <;> simp [remote_step, h]
    · cases h : env.remote <;> simp [remote_step, h]
    · intro d hrem stats
      simp [remote_step, hrem, apply_row_result]
    · intro e hrem stats
      simp [remote_step, hrem, apply_row_result]

/-- Witness for `normalize_cache_tier_policy` at concrete inputs: one fresh
cache entry and one stale entry whose remote lookup succeeds. -/
theorem normalize_cache_tier_policy_witness :
    (normalize_row (some 3600)
        ⟨[], [⟨"h", "cached_place", 100⟩], none, .error (.Config "unused")⟩
        ⟨"h", ⟨"Cached", none, 1, 2, none, none, "1,2,0", none⟩⟩).remoteCalled = false ∧
    (normalize_row (some 3600)
        ⟨[], [⟨"h", "stale_place", 7200⟩], none,
          .ok ⟨"fresh_place", "Refreshed", none, 2, 1, []⟩⟩
        ⟨"h", ⟨"Stale", none, 1, 2, none, none, "1,2,0", none⟩⟩).geoConsulted = false ∧
    (normalize_row (some 3600)
        ⟨[], [⟨"h", "stale_place", 7200⟩], none,
          .ok ⟨"fresh_place", "Refreshed", none, 2, 1, []⟩⟩
        ⟨"h", ⟨"Stale", none, 1, 2, none, none, "1,2,0", none⟩⟩).remoteCalled = true := by
  refine ⟨?_, ?_, ?_⟩
  · exact ((normalize_cache_tier_policy (some 3600)
      ⟨[], [⟨"h", "cached_place", 100⟩], none, .error (.Config "unused")⟩
      ⟨"h", ⟨"Cached", none, 1, 2, none, none, "1,2,0", none⟩⟩ rfl).1 "cached_place"
      (by decide)).1
  · exact ((normalize_cache_tier_policy (some 3600)
      ⟨[], [⟨"h", "stale_place", 7200⟩], none,
        .ok ⟨"fresh_place", "Refreshed", none, 2, 1, []⟩⟩
      ⟨"h", ⟨"Stale", none, 1, 2, none, none, "1,2,0", none⟩⟩ rfl).2 "stale_place"
      (by decide)).1
  · exact ((normalize_cache_tier_policy (some 3600)
      ⟨[], [⟨"h", "stale_place", 7200⟩], none,
        .ok ⟨"fresh_place", "Refreshed", none, 2, 1, []⟩⟩
      ⟨"h", ⟨"Stale", none, 1, 2, none, none, "1,2,0", none⟩⟩ rfl).2 "stale_place"
      (by decide)).2.1

/-- C4 (counterexample): a stale cache entry whose remote refresh fails does
issue the remote lookup but is counted as unresolved: `cache_misses` and
`stale_cache` stay 0, against the claim's unconditional counting. -/
theorem stale_remote_failure_uncounted :
    (normalize_row (some 3600)
        ⟨[], [⟨"h", "stale_place", 7200⟩], none, .error (.Config "transient")⟩
        ⟨"h", ⟨"Stale", none, 1, 2, none, none, "1,2,0", none⟩⟩).remoteCalled = true ∧
    (apply_row_result (.with_total 1)
        (normalize_row (some 3600)
          ⟨[], [⟨"h", "stale_place", 7200⟩], none, .error (.Config "transient")⟩
          ⟨"h", ⟨"Stale", none, 1, 2, none, none, "1,2,0", none⟩⟩).result).cache_misses = 0 ∧
    (apply_row_result (.with_total 1)
        (normalize_row (some 3600)
          ⟨[], [⟨"h", "stale_place", 7200⟩], none, .error (.Config "transient")⟩
          ⟨"h", ⟨"Stale", none, 1, 2, none, none, "1,2,0", none⟩⟩).result).stale_cache = 0 ∧
    (apply_row_result (.with_total 1)
        (normalize_row (some 3600)
          ⟨[], [⟨"h", "stale_place", 7200⟩], none, .error (.Config "transient")⟩
          ⟨"h", ⟨"Stale", none, 1, 2, none, none, "1,2,0", none⟩⟩).result).unresolved = 1 := by
  decide

/-- Each row outcome adds exactly one to `resolved + unresolved`. -/
theorem apply_row_result_total (s : NormalizationStats)
    (x : Except AppError (Option NormalizationResult)) :
    (apply_row_result s x).resolved + (apply_row_result s x).unresolved =
      s.resolved + s.unresolved + 1 := by
  cases x with
  | error e => simp [apply_row_result]; omega
  | ok o =>
    cases o with
    | none => simp [apply_row_result]; omega
    | some r =>
      rcases r with ⟨src, det, co⟩
      cases co <;> cases src <;> simp [apply_row_result] <;> omega

/-- Folding the per-row bookkeeping adds the list length to
`resolved + unresolved`. -/
theorem foldl_apply_row_total (l : List (Except AppError (Option NormalizationResult)))
    (s : NormalizationStats) :
    (l.foldl apply_row_result s).resolved + (l.foldl apply_row_result s).unresolved =
      s.resolved + s.unresolved + l.length := by
  induction l generalizing s with
  | nil => simp
  | cons x xs ih =>
    rw [List.foldl_cons, ih, apply_row_result_total]
    simp [List.length_cons]
    omega

/-- C9 (amended): when the cancel flag trips at row index `t` before the end,
the loop of `normalize_slot` stops there (`processed = t`), the remaining
rows are counted as unresolved, and the returned stats satisfy
`resolved + unresolved = total_rows`. -/
theorem normalize_slot_cancel_accounting
    (results : List (Except AppError (Option NormalizationResult))) (t : Nat)
    (ht : t < results.length) :
    processed_rows results.length (some t) = t ∧
    results.length - t ≤ (normalize_slot_loop results (some t)).unresolved ∧
    (normalize_slot_loop results (some t)).resolved +
      (normalize_slot_loop results (some t)).unresolved = results.length := by
  have hproc : processed_rows results.length (some t) = t := by
    simp [processed_rows]
    omega
  have hloop : normalize_slot_loop results (some t) =
      { (results.take t).foldl apply_row_result (.with_total results.length) with
        unresolved :=
          ((results.take t).foldl apply_row_result
            (.with_total results.length)).unresolved + (results.length - t) } := by
    simp only [normalize_slot_loop, hproc, Option.isSome_some, true_and]
    rw [if_pos ht]
  have htake : (results.take t).length = t := by
    rw [List.length_take]
    omega
  have htotal := foldl_apply_row_total (results.take t) (.with_total results.length)
  rw [htake] at htotal
  refine ⟨hproc, ?_, ?_⟩
  · rw [hloop]
    exact Nat.le_add_left _ _
  · rw [hloop]
    simp only [NormalizationStats.with_total] at htotal ⊢
    omega

/-- Witness for `normalize_slot_cancel_accounting` at a concrete input. -/
theorem normalize_slot_cancel_accounting_witness :
    processed_rows (([.ok none, .error (.Config "late")] :
        List (Except AppError (Option NormalizationResult))).length) (some 1) = 1 ∧
    ([.ok none, .error (.Config "late")] :
        List (Except AppError (Option NormalizationResult))).length - 1 ≤
      (normalize_slot_loop [.ok none, .error (.Config "late")] (some 1)).unresolved ∧
    (normalize_slot_loop [.ok none, .error (.Config "late")] (some 1)).resolved +
      (normalize_slot_loop [.ok none, .error (.Config "late")] (some 1)).unresolved =
      ([.ok none, .error (.Config "late")] :
        List (Except AppError (Option NormalizationResult))).length :=
  normalize_slot_cancel_accounting [.ok none, .error (.Config "late")] 1 (by decide)

/-- C9 (counterexample): a cancel trip after one handled-but-failed row:
`processed = 1` and `unresolved = 2` on two total rows, so
`processed + unresolved` is 3, not `total_rows = 2`. -/
theorem cancel_processed_equation_fails :
    processed_rows 2 (some 1) = 1 ∧
    (normalize_slot_loop [.error (.Config "transient"),
        .ok (some ⟨.Cache, ⟨"p", "n", none, 0, 0, []⟩, .Fresh "p"⟩)] (some 1)).unresolved = 2 ∧
    1 + 2 ≠ 2 := by
  decide

/-- C10: a configured TTL of 0 hours makes the normalizer's `cache_ttl`
`none`, under which `lookup_cache` classifies every existing entry as `Fresh`
regardless of age, so cached rows without a provided place_id never reach the
remote tier. -/
theorem zero_ttl_disables_staleness :
    cache_ttl_from_hours 0 = none ∧
    (∀ cache hash entry,
      cache.find? (fun e => e.source_row_hash == hash) = some entry →
      lookup_cache (cache_ttl_from_hours 0) cache hash = .Fresh entry.place_id) ∧
    (∀ (env : NormalizeEnv) (entry : RawRow) (e : CacheEntry),
      entry.row.place_id = none →
      env.cache.find? (fun c => c.source_row_hash == entry.source_hash) = some e →
      (normalize_row (cache_ttl_from_hours 0) env entry).remoteCalled = false) := by
  refine ⟨rfl, ?_, ?_⟩
  · intro cache hash entry hfind
    simp [lookup_cache, hfind, cache_ttl_from_hours]
  · intro env entry e hpid hfind
    have hfresh : lookup_cache (cache_ttl_from_hours 0) env.cache entry.source_hash =
        .Fresh e.place_id := by
      simp [lookup_cache, hfind, cache_ttl_from_hours]
    simp [normalize_row, hpid, hfresh]

/-- Witness for `zero_ttl_disables_staleness` at a very old cache entry. -/
theorem zero_ttl_disables_staleness_witness :
    lookup_cache (cache_ttl_from_hours 0) [⟨"h", "p", 999999999⟩] "h" = .Fresh "p" ∧
    (normalize_row (cache_ttl_from_hours 0)
        ⟨[], [⟨"h", "p", 999999999⟩], none, .error (.Config "unused")⟩
        ⟨"h", ⟨"T", none, 1, 2, none, none, "1,2", none⟩⟩).remoteCalled = false := by
  constructor
  · exact zero_ttl_disables_staleness.2.1 [⟨"h", "p", 999999999⟩] "h" ⟨"h", "p", 999999999⟩
      (by decide)
  · exact zero_ttl_disables_staleness.2.2
      ⟨[], [⟨"h", "p", 999999999⟩], none, .error (.Config "unused")⟩
      ⟨"h", ⟨"T", none, 1, 2, none, none, "1,2", none⟩⟩ ⟨"h", "p", 999999999⟩ rfl (by decide)

/-- One-step unfolding of `lookup_retry_from` on a successful attempt. -/
theorem lookup_retry_from_ok (r : Nat → Except AppError PlaceDetails) (j : Nat → Nat)
    (a : Nat) (d : PlaceDetails) (h : r a = .ok d) :
    lookup_retry_from r j a = ⟨.ok d, a, []⟩ := by
  rw [lookup_retry_from, h]

/-- One-step unfolding of `lookup_retry_from` on the last allowed attempt. -/
theorem lookup_retry_from_exhausted (r : Nat → Except AppError PlaceDetails) (j : Nat → Nat)
    (a : Nat) (e : AppError) (h : r a = .error e) (ha : ¬ a < MAX_ATTEMPTS) :
    lookup_retry_from r j a = ⟨.error e, a, []⟩ := by
  rw [lookup_retry_from, h]
  exact dif_neg ha

/-- One-step unfolding of `lookup_retry_from` on an `InvalidKey` failure. -/
theorem lookup_retry_from_invalid (r : Nat → Except AppError PlaceDetails) (j : Nat → Nat)
    (a : Nat) (e : AppError) (h : r a = .error e)
    (hk : classify_places_error e = .InvalidKey) :
    lookup_retry_from r j a = ⟨.error e, a, []⟩ := by
  rw [lookup_retry_from, h]
  by_cases ha : a < MAX_ATTEMPTS
  · exact (dif_pos ha).trans (if_pos hk)
  · exact dif_neg ha

/-- One-step unfolding of `lookup_retry_from` on a retryable failure. -/
theorem lookup_retry_from_step (r : Nat → Except AppError PlaceDetails) (j : Nat → Nat)
    (a : Nat) (e : AppError) (h : r a = .error e) (ha : a < MAX_ATTEMPTS)
    (hk : classify_places_error e ≠ .InvalidKey) :
    lookup_retry_from r j a =
      ⟨(lookup_retry_from r j (a + 1)).result, (lookup_retry_from r j (a + 1)).attempts,
        backoff_delay j a :: (lookup_retry_from r j (a + 1)).delays⟩ := by
  rw [lookup_retry_from, h]
  exact (dif_pos ha).trans (if_neg hk)

/-- The attempt counter of `lookup_retry_from` stays within
`[a, MAX_ATTEMPTS]`. -/
theorem lookup_retry_from_attempts_bounds (r : Nat → Except AppError PlaceDetails)
    (j : Nat → Nat) :
    ∀ n a, MAX_ATTEMPTS - a ≤ n → 1 ≤ a → a ≤ MAX_ATTEMPTS →
      a ≤ (lookup_retry_from r j a).attempts ∧
        (lookup_retry_from r j a).attempts ≤ MAX_ATTEMPTS := by
  intro n
  induction n with
  | zero =>
    intro a hn h1 h2
    have ha : a = MAX_ATTEMPTS := by omega
    subst ha
    cases hres : r MAX_ATTEMPTS with
    | ok d => rw [lookup_retry_from_ok r j _ _ hres]; exact ⟨le_rfl, le_rfl⟩
    | error e =>
      rw [lookup_retry_from_exhausted r j _ _ hres (by omega)]
      exact ⟨le_rfl, le_rfl⟩
  | succ n ih =>
    intro a hn h1 h2
    cases hres : r a with
    | ok d => rw [lookup_retry_from_ok r j _ _ hres]; exact ⟨le_rfl, h2⟩
    | error e =>
      by_cases ha : a < MAX_ATTEMPTS
      · by_cases hk : classify_places_error e = .InvalidKey
        · rw [lookup_retry_from_invalid r j _ _ hres hk]; exact ⟨le_rfl, h2⟩
        · have hstep := lookup_retry_from_step r j a e hres ha hk
          have hatt : (lookup_retry_from r j a).attempts =
              (lookup_retry_from r j (a + 1)).attempts := by
            rw [hstep]
          obtain ⟨hl, hr⟩ := ih (a + 1) (by omega) (by omega) (by omega)
          rw [hatt]
          exact ⟨by omega, hr⟩
      · rw [lookup_retry_from_exhausted r j _ _ hres ha]; exact ⟨le_rfl, h2⟩

/-- The delays of `lookup_retry_from` are exactly the backoff delays of the
failed attempts, in order. -/
theorem lookup_retry_from_delays_spec (r : Nat → Except AppError PlaceDetails)
    (j : Nat → Nat) :
    ∀ n a, MAX_ATTEMPTS - a ≤ n → 1 ≤ a → a ≤ MAX_ATTEMPTS →
      (lookup_retry_from r j a).delays =
        (List.range ((lookup_retry_from r j a).attempts - a)).map fun i =>
          backoff_delay j (a + i) := by
  intro n
  induction n with
  | zero =>
    intro a hn h1 h2
    have ha : a = MAX_ATTEMPTS := by omega
    subst ha
    cases hres : r MAX_ATTEMPTS with
    | ok d => rw [lookup_retry_from_ok r j _ _ hres]; simp
    | error e => rw [lookup_retry_from_exhausted r j _ _ hres (by omega)]; simp
  | succ n ih =>
    intro a hn h1 h2
    cases hres : r a with
    | ok d => rw [lookup_retry_from_ok r j _ _ hres]; simp
    | error e =>
      by_cases ha : a < MAX_ATTEMPTS
      · by_cases hk : classify_places_error e = .InvalidKey
        · rw [lookup_retry_from_invalid r j _ _ hres hk]; simp
        · have hstep := lookup_retry_from_step r j a e hres ha hk
          rw [hstep]
          show backoff_delay j a :: (lookup_retry_from r j (a + 1)).delays =
            (List.range ((lookup_retry_from r j (a + 1)).attempts - a)).map fun i =>
              backoff_delay j (a + i)
          have ih' := ih (a + 1) (by omega) (by omega) (by omega)
          obtain ⟨hl, _⟩ :=
            lookup_retry_from_attempts_bounds r j MAX_ATTEMPTS (a + 1) (by omega) (by omega)
              (by omega)
          have hsplit : (lookup_retry_from r j (a + 1)).attempts - a =
              ((lookup_retry_from r j (a + 1)).attempts - (a + 1)) + 1 := by omega
          rw [ih', hsplit, List.range_succ_eq_map, List.map_cons, List.map_map]
          refine List.cons_eq_cons.mpr ⟨rfl, List.map_congr_left fun i _ => ?_⟩
          show backoff_delay j (a + 1 + i) = backoff_delay j (a + (i + 1))
          have harg : a + 1 + i = a + (i + 1) := by omega
          rw [harg]
      · rw [lookup_retry_from_exhausted r j _ _ hres ha]; simp

/-- When every attempt before `a` fails with a retryable error,
`lookup_with_retry` behaves like the trace started at attempt `a`. -/
theorem lookup_retry_reaches (r : Nat → Except AppError PlaceDetails) (j : Nat → Nat)
    (a : Nat) (h1 : 1 ≤ a) (h2 : a ≤ MAX_ATTEMPTS)
    (hprev : ∀ b, 1 ≤ b → b < a →
      ∃ eb, r b = .error eb ∧ classify_places_error eb ≠ .InvalidKey) :
    (lookup_with_retry r j).result = (lookup_retry_from r j a).result ∧
      (lookup_with_retry r j).attempts = (lookup_retry_from r j a).attempts := by
  induction a with
  | zero => omega
  | succ a ih =>
    by_cases haz : a = 0
    · subst haz
      exact ⟨rfl, rfl⟩
    · obtain ⟨hres, hatt⟩ :=
        ih (by omega) (by omega) (fun b hb1 hb2 => hprev b hb1 (by omega))
      obtain ⟨ea, hea, hka⟩ := hprev a (by omega) (by omega)
      have hstep := lookup_retry_from_step r j a ea hea (by omega) hka
      constructor
      · rw [hres, hstep]
      · rw [hatt, hstep]

/-- C5: a failing remote lookup is attempted at most `MAX_ATTEMPTS = 5`
times; HTTP 401/402/403 classify as `InvalidKey` and are never retried —
the error propagates at once — while `Quota` (429/503), `Network`
(timeout/connect) and `Other` errors are retried; the delay slept before
attempt `i + 2` equals `250 * 2^min(i, 6)` milliseconds plus a jitter drawn
in `[0, 250)`. -/
theorem lookup_retry_policy (responses : Nat → Except AppError PlaceDetails) (js : Nat → Nat) :
    (lookup_with_retry responses js).attempts ≤ MAX_ATTEMPTS ∧ MAX_ATTEMPTS = 5 ∧
    (∀ s, s = 401 ∨ s = 402 ∨ s = 403 →
      classify_places_error (.Http ⟨false, false, some s⟩) = .InvalidKey) ∧
    (∀ s, s = 429 ∨ s = 503 →
      classify_places_error (.Http ⟨false, false, some s⟩) = .Quota) ∧
    (∀ he : HttpError, he.is_timeout = true ∨ he.is_connect = true →
      classify_places_error (.Http he) = .Network) ∧
    ((lookup_with_retry responses js).delays =
      (List.range ((lookup_with_retry responses js).attempts - 1)).map fun i =>
        backoff_delay js (1 + i)) ∧
    (∀ i, backoff_delay js (1 + i) =
      BASE_BACKOFF_MS * 2 ^ min i 6 + js (1 + i) % BASE_BACKOFF_MS ∧
      js (1 + i) % BASE_BACKOFF_MS < BASE_BACKOFF_MS) ∧
    (∀ a e, 1 ≤ a → a ≤ MAX_ATTEMPTS →
      (∀ b, 1 ≤ b → b < a →
        ∃ eb, responses b = .error eb ∧ classify_places_error eb ≠ .InvalidKey) →
      responses a = .error e → classify_places_error e = .InvalidKey →
      (lookup_with_retry responses js).result = .error e ∧
        (lookup_with_retry responses js).attempts = a) ∧
    (∀ a e, 1 ≤ a → a < MAX_ATTEMPTS →
      (∀ b, 1 ≤ b → b < a →
        ∃ eb, responses b = .error eb ∧ classify_places_error eb ≠ .InvalidKey) →
      responses a = .error e → classify_places_error e ≠ .InvalidKey →
      a < (lookup_with_retry responses js).attempts) := by
  refine ⟨?_, rfl, ?_, ?_, ?_, ?_, ?_, ?_, ?_⟩
  · exact (lookup_retry_from_attempts_bounds responses js MAX_ATTEMPTS 1 (by decide) le_rfl
      (by decide)).2
  · rintro s (rfl | rfl | rfl) <;> rfl
  · rintro s (rfl | rfl) <;> rfl
  · intro he hor
    rcases he with ⟨ht, hc, hs⟩
    rcases hor with h | h <;> cases h <;> simp [classify_places_error]
  · exact lookup_retry_from_delays_spec responses js MAX_ATTEMPTS 1 (by decide) le_rfl
      (by decide)
  · intro i
    constructor
    · show BASE_BACKOFF_MS * 2 ^ min (1 + i - 1) 6 + js (1 + i) % BASE_BACKOFF_MS = _
      have : 1 + i - 1 = i := by omega
      rw [this]
    · exact Nat.mod_lt _ (by decide)
  · intro a e h1 h2 hprev hres hkind
    obtain ⟨hr, hatt⟩ := lookup_retry_reaches responses js a h1 h2 hprev
    have hinv := lookup_retry_from_invalid responses js a e hres hkind
    rw [hr, hatt, hinv]
    exact ⟨rfl, rfl⟩
  · intro a e h1 h2 hprev hres hkind
    obtain ⟨_, hatt⟩ := lookup_retry_reaches responses js a h1 (by omega) hprev
    have hstep := lookup_retry_from_step responses js a e hres h2 hkind
    have hnext : (lookup_retry_from responses js a).attempts =
        (lookup_retry_from responses js (a + 1)).attempts := by
      rw [hstep]
    obtain ⟨hl, _⟩ :=
      lookup_retry_from_attempts_bounds responses js MAX_ATTEMPTS (a + 1) (by omega) (by omega)
        (by omega)
    rw [hatt, hnext]
    omega

/-- Witness for `lookup_retry_policy`: a 429 quota failure followed by a 401
authorization failure stops at attempt 2 with the 401 error, after a single
first-step backoff delay. -/
theorem lookup_retry_policy_witness :
    (lookup_with_retry
        (fun a => if a = 1 then .error (.Http ⟨false, false, some 429⟩)
          else if a = 2 then .error (.Http ⟨false, false, some 401⟩)
          else .ok ⟨"p", "n", none, 0, 0, []⟩)
        (fun _ => 7)).result = .error (.Http ⟨false, false, some 401⟩) ∧
    (lookup_with_retry
        (fun a => if a = 1 then .error (.Http ⟨false, false, some 429⟩)
          else if a = 2 then .error (.Http ⟨false, false, some 401⟩)
          else .ok ⟨"p", "n", none, 0, 0, []⟩)
        (fun _ => 7)).attempts = 2 := by
  refine (lookup_retry_policy
      (fun a => if a = 1 then .error (.Http ⟨false, false, some 429⟩)
        else if a = 2 then .error (.Http ⟨false, false, some 401⟩)
        else .ok ⟨"p", "n", none, 0, 0, []⟩)
      (fun _ => 7)).2.2.2.2.2.2.2.1 2 (.Http ⟨false, false, some 401⟩)
    (by omega) (by decide) ?_ rfl (by decide)
  intro b hb1 hb2
  have hb : b = 1 := by omega
  subst hb
  exact ⟨.Http ⟨false, false, some 429⟩, rfl, by decide⟩

/-- A supplied checksum differing from the computed MD5 fails the
download. -/
theorem download_file_checksum_mismatch (md5 : List Nat → String) (bytes : List Nat)
    (expected_size : Option Nat) (c : String) (hne : c ≠ md5 bytes) :
    download_file md5 bytes expected_size (some c) = .error (.Parse "checksum mismatch") := by
  simp [download_file, checksum_mismatch, hne]

/-- A supplied size differing from the received byte count fails the
download. -/
theorem download_file_size_mismatch (md5 : List Nat → String) (bytes : List Nat)
    (expected_checksum : Option String) (s : Nat) (hne : s ≠ bytes.length) :
    download_file md5 bytes (some s) expected_checksum =
      .error (.Parse "checksum mismatch") := by
  simp [download_file, size_mismatch, hne]

/-- C6: the download verification computes MD5 over the received bytes and
fails with `Parse "checksum mismatch"` when a supplied expected checksum
differs, and in the same way when a supplied expected size differs from the
received byte count; on success both supplied expectations matched. -/
theorem download_checksum_verification (md5 : List Nat → String) (bytes : List Nat)
    (expected_size : Option Nat) (expected_checksum : Option String) :
    (∀ c, expected_checksum = some c → c ≠ md5 bytes →
      download_file md5 bytes expected_size expected_checksum =
        .error (.Parse "checksum mismatch")) ∧
    (∀ s, expected_size = some s → s ≠ bytes.length →
      download_file md5 bytes expected_size expected_checksum =
        .error (.Parse "checksum mismatch")) ∧
    (∀ d, download_file md5 bytes expected_size expected_checksum = .ok d →
      d.bytes = bytes ∧ d.checksum_md5 = md5 bytes ∧ d.received_bytes = bytes.length ∧
      (∀ c, expected_checksum = some c → c = md5 bytes) ∧
      (∀ s, expected_size = some s → s = bytes.length)) := by
  refine ⟨?_, ?_, ?_⟩
  · intro c hc hne
    rw [hc]
    exact download_file_checksum_mismatch md5 bytes expected_size c hne
  · intro s hs hne
    rw [hs]
    exact download_file_size_mismatch md5 bytes expected_checksum s hne
  · intro d hok
    have hc : ∀ c, expected_checksum = some c → c = md5 bytes := by
      intro c hcc
      by_contra hne
      rw [hcc, download_file_checksum_mismatch md5 bytes expected_size c hne] at hok
      exact Except.noConfusion hok
    have hs : ∀ s, expected_size = some s → s = bytes.length := by
      intro s hss
      by_contra hne
      rw [hss, download_file_size_mismatch md5 bytes expected_checksum s hne] at hok
      exact Except.noConfusion hok
    have hcm : checksum_mismatch (md5 bytes) expected_checksum = false := by
      cases hecc : expected_checksum with
      | none => rfl
      | some c => simp [checksum_mismatch, hc c hecc]
    have hsm : size_mismatch bytes.length expected_size = false := by
      cases hess : expected_size with
      | none => rfl
      | some s => simp [size_mismatch, hs s hess]
    have hval : download_file md5 bytes expected_size expected_checksum =
        .ok ⟨bytes, bytes.length, md5 bytes, expected_size⟩ := by
      simp [download_file, hcm, hsm]
    rw [hval] at hok
    cases hok
    exact ⟨rfl, rfl, rfl, hc, hs⟩

/-- Witness for `download_checksum_verification`: a wrong checksum and a
wrong size each fail with the mismatch parse error. -/
theorem download_checksum_verification_witness :
    download_file (fun l => toString l.length) [1, 2] none (some "x") =
      .error (.Parse "checksum mismatch") ∧
    download_file (fun l => toString l.length) [1, 2] (some 3) none =
      .error (.Parse "checksum mismatch") := by
  constructor
  · exact (download_checksum_verification (fun l => toString l.length) [1, 2] none
      (some "x")).1 "x" rfl (by decide)
  · exact (download_checksum_verification (fun l => toString l.length) [1, 2] (some 3)
      none).2.1 3 rfl (by decide)

/-- With neither list present every segment relation is empty. -/
theorem segment_rows_no_lists (db : CompDb) (project_id : Int)
    (ha : list_id db project_id .A = none) (hb : list_id db project_id .B = none)
    (segment : ComparisonSegment) :
    segment_rows db project_id segment = [] := by
  unfold segment_rows
  rw [ha, hb]
  cases segment <;> simp [member_place]

/-- C7 (amended): for an existing project with neither an A list nor a B
list, `compute_snapshot` succeeds with all counts zero and empty segment
pages — never an error. -/
theorem snapshot_without_lists_is_empty (db : CompDb) (project_id : Int)
    (pagination : Option ComparisonPagination) (project : Int × String)
    (hproj : db.projects.find? (fun p => p.1 == project_id) = some project)
    (ha : list_id db project_id .A = none) (hb : list_id db project_id .B = none) :
    ∃ snap, compute_snapshot db project_id pagination = .ok snap ∧
      snap.project = project ∧
      snap.stats = ⟨0, 0, 0, 0, 0, 0, 0⟩ ∧
      snap.overlap.rows = [] ∧ snap.overlap.total = 0 ∧
      snap.only_a.rows = [] ∧ snap.only_a.total = 0 ∧
      snap.only_b.rows = [] ∧ snap.only_b.total = 0 := by
  have hseg := segment_rows_no_lists db project_id ha hb
  have hcount : ∀ segment, count_segment db project_id segment = 0 := by
    intro segment
    unfold count_segment
    rw [hseg]
    rfl
  have hload : ∀ segment pg, (load_segment db project_id segment pg).rows = [] ∧
      (load_segment db project_id segment pg).total = 0 := by
    intro segment pg
    unfold load_segment
    rw [hseg, hcount]
    constructor
    · cases pg <;> simp [sort_by_name_nocase]
    · rfl
  unfold compute_snapshot project_info
  rw [hproj]
  refine ⟨_, rfl, rfl, ?_, ?_, ?_, ?_, ?_, ?_, ?_⟩
  · rw [ha, hb]
    simp [count_places, pending_count, hcount]
  · exact (hload _ _).1
  · exact (hload _ _).2
  · exact (hload _ _).1
  · exact (hload _ _).2
  · exact (hload _ _).1
  · exact (hload _ _).2

/-- Witness for `snapshot_without_lists_is_empty` on a freshly seeded
database with only the default project. -/
theorem snapshot_without_lists_is_empty_witness :
    ∃ snap, compute_snapshot ⟨[(1, "Default project")], [], [], [], [], []⟩ 1 none =
        .ok snap ∧
      snap.project = (1, "Default project") ∧
      snap.stats = ⟨0, 0, 0, 0, 0, 0, 0⟩ ∧
      snap.overlap.rows = [] ∧ snap.overlap.total = 0 ∧
      snap.only_a.rows = [] ∧ snap.only_a.total = 0 ∧
      snap.only_b.rows = [] ∧ snap.only_b.total = 0 :=
  snapshot_without_lists_is_empty ⟨[(1, "Default project")], [], [], [], [], []⟩ 1 none
    (1, "Default project") rfl rfl rfl

/-- C7 (counterexample): a project with an A list holding one assigned place
and no B list: `compute_snapshot` succeeds but reports `list_a_count = 1`,
not the zero counts the claim promises whenever either list is missing. -/
theorem snapshot_single_list_nonzero_count :
    ((compute_snapshot
        ⟨[(1, "P")], [⟨10, 1, .A⟩], [(10, "p1")], [], [],
          [⟨"p1", "Alpha", none, 1, 1, []⟩]⟩ 1 none).toOption.map
      fun s => s.stats.list_a_count) = some 1 ∧ (1 : Nat) ≠ 0 := by
  constructor
  · decide
  · decide

/-- The siblings kept by `prune_rotations` never exceed
`max_file_count - 1`. -/
theorem prune_rotations_bound (max_file_count : Nat) (rots : List Nat) :
    (prune_rotations max_file_count rots).kept.length ≤ max_file_count - 1 := by
  simp only [prune_rotations]
  split
  · rename_i hgt
    rw [List.length_drop]
    omega
  · rename_i hle
    rw [Nat.not_lt] at hle
    rw [List.length_insertionSort] at hle
    exact hle

/-- `prune_rotations` deletes only files no newer than every kept file. -/
theorem prune_rotations_oldest (max_file_count : Nat) (rots : List Nat) :
    ∀ d ∈ (prune_rotations max_file_count rots).deleted,
      ∀ k ∈ (prune_rotations max_file_count rots).kept, d ≤ k := by
  simp only [prune_rotations]
  split
  · rename_i hgt
    intro d hd k hk
    exact (List.sorted_insertionSort _ rots).rel_of_mem_take_of_mem_drop hd hk
  · intro d hd k hk
    simp at hd

/-- C8 (amended): when a batch would push the primary past `max_file_bytes`
and `max_file_count` permits rotation, `write_batch` renames the primary to a
rotated sibling, prunes the oldest siblings by mtime down to at most
`max_file_count - 1`, and truncates, so the primary afterwards holds exactly
the batch — within `max_file_bytes` whenever the batch alone fits. -/
theorem telemetry_rotation_bounds (cfg : TelemetryConfig) (fs : BufferFs) (incoming now : Nat)
    (hover : cfg.max_file_bytes < fs.primary + incoming)
    (hfit : incoming ≤ cfg.max_file_bytes)
    (hcount : 2 ≤ cfg.max_file_count) :
    (write_batch cfg fs incoming now).rotated = true ∧
    (write_batch cfg fs incoming now).fs.primary = incoming ∧
    (write_batch cfg fs incoming now).fs.primary ≤ cfg.max_file_bytes ∧
    (write_batch cfg fs incoming now).fs.rotations.length ≤ cfg.max_file_count - 1 ∧
    (∀ d ∈ (write_batch cfg fs incoming now).deleted,
      ∀ k ∈ (write_batch cfg fs incoming now).fs.rotations, d ≤ k) := by
  have hrot : rotate_if_needed cfg fs incoming now =
      ⟨⟨0, (prune_rotations cfg.max_file_count (fs.rotations ++ [now])).kept⟩, true,
        (prune_rotations cfg.max_file_count (fs.rotations ++ [now])).deleted⟩ := by
    unfold rotate_if_needed
    rw [if_neg (by omega), if_neg (by omega)]
  have hwb : write_batch cfg fs incoming now =
      ⟨⟨0 + incoming, (prune_rotations cfg.max_file_count (fs.rotations ++ [now])).kept⟩, true,
        (prune_rotations cfg.max_file_count (fs.rotations ++ [now])).deleted⟩ := by
    unfold write_batch
    rw [hrot]
  rw [hwb]
  refine ⟨rfl, Nat.zero_add incoming, ?_, ?_, ?_⟩
  · show 0 + incoming ≤ cfg.max_file_bytes
    omega
  · exact prune_rotations_bound cfg.max_file_count (fs.rotations ++ [now])
  · exact prune_rotations_oldest cfg.max_file_count (fs.rotations ++ [now])

/-- Witness for `telemetry_rotation_bounds` at a concrete overflowing
record. -/
theorem telemetry_rotation_bounds_witness :
    (write_batch ⟨64, 3⟩ ⟨60, [4, 2, 9]⟩ 10 5).rotated = true ∧
    (write_batch ⟨64, 3⟩ ⟨60, [4, 2, 9]⟩ 10 5).fs.primary = 10 ∧
    (write_batch ⟨64, 3⟩ ⟨60, [4, 2, 9]⟩ 10 5).fs.primary ≤ 64 ∧
    (write_batch ⟨64, 3⟩ ⟨60, [4, 2, 9]⟩ 10 5).fs.rotations.length ≤ 3 - 1 := by
  have h := telemetry_rotation_bounds ⟨64, 3⟩ ⟨60, [4, 2, 9]⟩ 10 5 (by decide) (by decide)
    (by decide)
  exact ⟨h.1, h.2.1, h.2.2.1, h.2.2.2.1⟩

/-- C8 (counterexample): a batch larger than `max_file_bytes` leaves the
primary over the limit even after rotating, and with `max_file_count = 1` an
overflowing record truncates in place without ever creating a rotated
sibling. -/
theorem telemetry_rotation_claim_fails :
    ((write_batch ⟨64, 3⟩ ⟨0, []⟩ 100 5).fs.primary = 100 ∧ ¬ (100 : Nat) ≤ 64) ∧
    ((write_batch ⟨64, 1⟩ ⟨60, []⟩ 10 5).rotated = false ∧
      (write_batch ⟨64, 1⟩ ⟨60, []⟩ 10 5).fs.rotations = []) := by
  decide

end MapsListComparator
